import Mathlib

/-!
Verification of `tioxy/jira-cli`, package `pkg/tui` (`screen.go`).

The Go code is shallowly embedded: pure helpers become Lean functions;
Go `int` indices become `Int` (so the `-1` sentinel is representable);
slice indexing that may panic becomes `Option`; every observable side
effect of the table's event handlers (page show/hide, footer updates,
announcements, callback invocations, redraw requests) is recorded in a
trace of `Effect`s produced by a pure function modelling the handler.
-/

namespace JiraTui

/-- Go slice indexing `l[i]` with an `Int` index: `none` models a panic
(negative or out-of-range index). -/
def idx? {α : Type} (l : List α) (i : Int) : Option α :=
  if 0 ≤ i then l[i.toNat]? else none

/-- ASCII case folding of one character (uppercase letters mapped to
lowercase). -/
def charFold (ch : Char) : Char :=
  if 'A' ≤ ch ∧ ch ≤ 'Z' then Char.ofNat (ch.toNat + 32) else ch

/-- `strings.EqualFold`, modelled as ASCII-case-insensitive comparison
(the keys looked up in this program, "STATUS" and "SUMMARY", are ASCII). -/
def equalFold (a b : String) : Bool :=
  a.data.map charFold == b.data.map charFold

/-- First index of an element satisfying `p`, `none` if there is none.
Used to embed the linear searches of `TableData.GetIndex` and
`currentStatusIdx` with an easy induction principle. -/
def firstIdx? {α : Type} (p : α → Bool) : List α → Option Nat
  | [] => none
  | x :: xs => if p x then some 0 else (firstIdx? p xs).map (· + 1)

/-- `TableData` from screen.go: `type TableData [][]string`. -/
abbrev TableData := List (List String)

/-- `TableData.Get`: returns `""` on a `-1` sentinel index; other
out-of-range access is an unguarded panic (`none`). -/
def TableData.Get (td : TableData) (r c : Int) : Option String :=
  if r ≠ -1 ∧ c ≠ -1 then
    match idx? td r with
    | none => none
    | some row => idx? row c
  else some ""

/-- `TableData.GetIndex`: case-insensitive first-match search over the
header row; `-1` if the table is empty or no column matches. -/
def TableData.GetIndex (td : TableData) (key : String) : Int :=
  match td with
  | [] => -1
  | hdr :: _ =>
    match firstIdx? (fun v => equalFold v key) hdr with
    | some i => (i : Int)
    | none => -1

/-- `TableData.Update`: in-place cell replacement, a no-op on a `-1`
sentinel index; `none` models the panic on any other out-of-range index. -/
def TableData.Update (td : TableData) (r c : Int) (val : String) :
    Option TableData :=
  if r ≠ -1 ∧ c ≠ -1 then
    match idx? td r with
    | none => none
    | some row =>
      if 0 ≤ c ∧ c.toNat < row.length then
        some (td.set r.toNat (row.set c.toNat val))
      else none
  else some td

/-- Cell lookup by `Nat` coordinates, for stating frame conditions. -/
def cell? (td : TableData) (i j : Nat) : Option String :=
  (td[i]?).bind (fun row => row[j]?)

/-! ## Screen / Announcer (screen.go, `AnnounceToScreenReader`) -/

/-- The `[SCREEN_READER_ANNOUNCEMENT]` marker prefix applied first. -/
def announcementText (announcement : String) : String :=
  "[SCREEN_READER_ANNOUNCEMENT] " ++ announcement

/-- Wrapping in the terminal conceal escape sequence: `\033[8m` before
(conceal on), `\033[0m` after (reset). -/
def concealWrap (text : String) : String :=
  "\x1b[8m" ++ text ++ "\x1b[0m"

/-- `Screen.AnnounceToScreenReader`, modelled as the list of writes it
performs on the standard-error stream. -/
def AnnounceToScreenReader (accessibilityEnabled : Bool)
    (announcement : String) : List String :=
  if accessibilityEnabled then
    [concealWrap (announcementText announcement)]
  else []

/-! ## Effect traces

Each event handler of `Table` is embedded as a pure function returning the
ordered list of observable effects it performs. -/

/-- The `tcell` colors the table code sets on the modal footer. -/
inductive Color
  | gray
  | red
deriving DecidableEq, Repr

/-- Observable side effects of the table's handlers. -/
inductive Effect
  | showPage (name : String)
  | hidePage (name : String)
  | sendToFront (name : String)
  | setFooter (text : String) (color : Color)
  | announce (text : String)
  | forceDraw
  | draw
  | moveFuncCall (r c : Int)
  | handlerCall (label : String)
  | refreshCall (r c : Int) (label : String)
  | copyCall (r c : Int)
  | repaint
  | setButtons (btns : List String) (focus : Nat)
  | setActionText (text : String)
  | registerDone
  | render
  | runUI
deriving DecidableEq, Repr

/-- `if t.screen.accessibilityEnabled { t.screen.AnnounceToScreenReader(text) }`
— the gate used at every announcement site inside the table code. -/
def announceIfEnabled (enabled : Bool) (text : String) : List Effect :=
  if enabled then [Effect.announce text] else []

/-- The standard-error writes produced by a handler trace: every
`announce` effect goes through `AnnounceToScreenReader`. -/
def stderrWrites (enabled : Bool) (tr : List Effect) : List String :=
  tr.flatMap (fun e =>
    match e with
    | Effect.announce t => AnnounceToScreenReader enabled t
    | _ => [])

/-- Is the effect an invocation of the refresh callback? -/
def Effect.isRefresh : Effect → Bool
  | Effect.refreshCall _ _ _ => true
  | _ => false

/-! ## Selection-change narration (`Table.render`) -/

/-- The announcement composed by the `SetSelectionChangedFunc` closure in
`Table.render` when the cursor moves to `(r, c)`; `none` when the closure
announces nothing. -/
def selectionAnnouncement (data : TableData) (r c : Int) : Option String :=
  if r > 0 ∧ r < (List.length data : Int) ∧ 0 ≤ c ∧
      c < ((List.headD data []).length : Int) then
    let rowData := List.getD data r.toNat []
    if rowData.length > 0 then
      let statusCol := TableData.GetIndex data "STATUS"
      let summaryCol := TableData.GetIndex data "SUMMARY"
      let base := toString r ++ " of " ++ toString (List.length data - 1) ++
        ": " ++ rowData.getD 0 ""
      let withStatus :=
        if 0 ≤ statusCol ∧ statusCol < (rowData.length : Int) then
          base ++ ", " ++ rowData.getD statusCol.toNat ""
        else base
      let full :=
        if 0 ≤ summaryCol ∧ summaryCol < (rowData.length : Int) then
          withStatus ++ ", " ++ rowData.getD summaryCol.toNat ""
        else withStatus
      some full
    else none
  else none

/-- The effects of one firing of the selection-changed subscription (the
closure calls `AnnounceToScreenReader` unconditionally; the accessibility
gate lives inside that call, see `stderrWrites`). -/
def selectionChanged (data : TableData) (r c : Int) : List Effect :=
  match selectionAnnouncement data r c with
  | some t => [Effect.announce t]
  | none => []

/-- The narration composed the way the spec words it: `"<r> of
<totalDataRows>: <firstColumnValue>"`, extended with `", <status>"` if a
STATUS column exists in the header and `", <summary>"` if a SUMMARY column
exists. -/
def specSelectionNarration (data : TableData) (r : Int) : String :=
  let hdr := List.headD data []
  let row := List.getD data r.toNat []
  let base := toString r ++ " of " ++ toString (List.length data - 1) ++
    ": " ++ row.getD 0 ""
  let s1 :=
    match firstIdx? (fun v => equalFold v "STATUS") hdr with
    | some i => base ++ ", " ++ row.getD i ""
    | none => base
  match firstIdx? (fun v => equalFold v "SUMMARY") hdr with
  | some i => s1 ++ ", " ++ row.getD i ""
  | none => s1

/-! ## Transition (move) flow (`Table.initTable`, case 'm') -/

/-- The navigation instructions placed in the modal footer. -/
def navFooterText : String :=
  "Use TAB or ← → to navigate, ENTER to select, ESC or q to cancel."

/-- The processing message shown when a button is selected. -/
def processingMsg : String := "Processing. Please wait..."

/-- `refreshContextInFooter`: sets the footer to the navigation
instructions (gray) and narrates them when accessibility is enabled. -/
def refreshContextInFooter (enabled : Bool) : List Effect :=
  [Effect.setFooter navFooterText Color.gray] ++
    announceIfEnabled enabled navFooterText

/-- `currentStatusIdx`: index of the first button equal to the current
status, `0` when no button matches. -/
def currentStatusIdx (actions : List String) (currentStatus : String) : Nat :=
  (firstIdx? (fun btn => btn == currentStatus) actions).getD 0

/-- The background task run on key 'm', up to (and including) showing the
interactive action modal: show the transient overlay, announce context
instructions, call `moveFunc` to obtain the transition request, announce
the candidate states, build the modal with default focus
`currentStatusIdx`, then (deferred) swap the overlay for the action modal
and request a redraw. `setButtons` records the buttons and the initial
focus index; `registerDone` records installing the `SetDoneFunc` closure
(modelled separately as `actionDone`). -/
def moveSetup (enabled : Bool) (r c : Int) (key currentStatus : String)
    (actions : List String) : List Effect :=
  [Effect.showPage "secondary", Effect.sendToFront "secondary"] ++
  refreshContextInFooter enabled ++
  [Effect.moveFuncCall r c] ++
  announceIfEnabled enabled
    ("Transition menu for " ++ key ++ ". Available options: " ++
      String.intercalate ", " actions) ++
  [Effect.setButtons actions (currentStatusIdx actions currentStatus),
   Effect.setActionText
     ("Select desired state to transition " ++ key ++ " to:"),
   Effect.registerDone,
   Effect.hidePage "secondary", Effect.showPage "action", Effect.draw]

/-- The `SetDoneFunc` closure installed on the action modal: runs when the
user selects the button `btnLabel`. `handler label = some msg` models the
move handler returning the error `msg`; `none` models success.
`hasRefresh` says whether a refresh callback was supplied. -/
def actionDone (enabled : Bool) (key : String)
    (handler : String → Option String) (hasRefresh : Bool) (r c : Int)
    (btnLabel : String) : List Effect :=
  [Effect.setFooter processingMsg Color.gray] ++
  announceIfEnabled enabled processingMsg ++
  [Effect.forceDraw, Effect.handlerCall btnLabel] ++
  (match handler btnLabel with
   | some msg =>
     [Effect.setFooter ("Error: " ++ msg) Color.red] ++
       announceIfEnabled enabled ("Error: " ++ msg)
   | none =>
     [Effect.hidePage "action"] ++ refreshContextInFooter enabled ++
       announceIfEnabled enabled
         ("Successfully transitioned " ++ key ++ " to " ++ btnLabel) ++
       (if hasRefresh then
          [Effect.refreshCall r c btnLabel, Effect.repaint]
        else []))

/-- Key events relevant to the handlers modelled here. -/
inductive Key
  | esc
  | rune (ch : Char)
  | ctrlS
  | ctrlA
  | other
deriving DecidableEq, Repr

/-- The input-capture installed on the action modal in `NewTable`:
Esc or rune 'q' hides the "action" page; everything else passes through. -/
def actionInputCapture (k : Key) : List Effect :=
  match k with
  | Key.esc => [Effect.hidePage "action"]
  | Key.rune ch => if ch = 'q' then [Effect.hidePage "action"] else []
  | _ => []

/-- The whole Transition Flow when the user cancels with key `k` before
selecting any button: the setup trace followed by the cancel handling.
The `SetDoneFunc` closure (`actionDone`) never runs. -/
def moveFlowCancelled (enabled : Bool) (r c : Int)
    (key currentStatus : String) (actions : List String) (k : Key) :
    List Effect :=
  moveSetup enabled r c key currentStatus actions ++ actionInputCapture k

/-! ## Remaining dispatcher paths that announce -/

/-- Case 'c' of the key dispatcher: invoke the copy callback with the
current selection and narrate "Copied to clipboard". -/
def copyPath (enabled : Bool) (hasCopyFunc : Bool) (r c : Int) :
    List Effect :=
  if hasCopyFunc then
    [Effect.copyCall r c] ++ announceIfEnabled enabled "Copied to clipboard"
  else []

/-- Case '?' of the key dispatcher: show the help page and narrate that it
opened. -/
def helpPath (enabled : Bool) : List Effect :=
  [Effect.showPage "help"] ++
    announceIfEnabled enabled "Help screen opened. Press q or Escape to close."

/-- Ctrl+S (speak current cell), active only in accessibility mode:
compose "Row R, Column C (Header): Value" for the selected in-range cell
and announce it. -/
def speakCellPath (enabled : Bool) (data : TableData) (r c : Int) :
    List Effect :=
  if enabled then
    if 0 ≤ r ∧ r < (List.length data : Int) ∧ 0 ≤ c ∧
        c < ((List.headD data []).length : Int) then
      let cellData := (TableData.Get data r c).getD ""
      let headerText :=
        if 0 < List.length data ∧ c < ((List.headD data []).length : Int)
        then (List.headD data []).getD c.toNat ""
        else ""
      [Effect.announce ("Row " ++ toString r ++ ", Column " ++ toString c ++
        " (" ++ headerText ++ "): " ++ cellData)]
    else []
  else []

/-- The fixed accessibility keybinding summary narrated on Ctrl+A. -/
def accessibilityHelp : String :=
  "Accessibility shortcuts: Control+S to speak current cell, " ++
  "Control+A for this help, Arrow keys to navigate, Tab to move between sections."

/-- Ctrl+A (speak help), active only in accessibility mode. -/
def speakHelpPath (enabled : Bool) : List Effect :=
  if enabled then [Effect.announce accessibilityHelp] else []

/-! ## `Table.Paint` -/

/-- `errNoData = fmt.Errorf("no data")`. -/
def errNoData : String := "no data"

/-- The delayed goroutine scheduled by `Paint` to narrate the footer text
once the surface has established its initial selection: its effects once
it runs. -/
def initialAnnounce (enabled : Bool) (footerText : String)
    (data : TableData) : List Effect :=
  if enabled ∧ 1 < List.length data then
    if 1 < List.length data ∧ 0 < (List.getD data 1 []).length then
      if footerText ≠ "" then [Effect.announce footerText] else []
    else []
  else []

/-- `Table.Paint`: fails with `errNoData` on empty input, before any UI
is shown; otherwise stores the data, renders, and (in accessibility mode,
with at least one data row) schedules the delayed footer narration. The
returned trace holds the scheduled announcement effects. -/
def Paint (enabled : Bool) (footerText : String) (data : TableData) :
    Except String (List Effect) :=
  if List.length data == 0 then Except.error errNoData
  else
    Except.ok ([Effect.render] ++ initialAnnounce enabled footerText data ++
      [Effect.runUI])

/-! ## Helper lemmas -/

theorem firstIdx?_lt_length {α : Type} {p : α → Bool} :
    ∀ {l : List α} {i : Nat}, firstIdx? p l = some i → i < l.length := by
  intro l
  induction l with
  | nil => intro i h; simp [firstIdx?] at h
  | cons x xs ih =>
    intro i h
    by_cases hp : p x
    · simp [firstIdx?, hp] at h
      subst h
      simp
    · simp [firstIdx?, hp] at h
      obtain ⟨j, hj, rfl⟩ := h
      have := ih hj
      simp
      omega

theorem firstIdx?_found {α : Type} {p : α → Bool} :
    ∀ {l : List α} {i : Nat}, firstIdx? p l = some i →
      ∃ a, l[i]? = some a ∧ p a = true := by
  intro l
  induction l with
  | nil => intro i h; simp [firstIdx?] at h
  | cons x xs ih =>
    intro i h
    by_cases hp : p x
    · simp [firstIdx?, hp] at h
      subst h
      exact ⟨x, by simp, hp⟩
    · simp [firstIdx?, hp] at h
      obtain ⟨j, hj, rfl⟩ := h
      obtain ⟨a, ha, hpa⟩ := ih hj
      exact ⟨a, by simpa using ha, hpa⟩

theorem firstIdx?_min {α : Type} {p : α → Bool} :
    ∀ {l : List α} {i : Nat}, firstIdx? p l = some i →
      ∀ j, j < i → ∀ a, l[j]? = some a → p a = false := by
  intro l
  induction l with
  | nil => intro i h; simp [firstIdx?] at h
  | cons x xs ih =>
    intro i h j hj a ha
    by_cases hp : p x
    · simp [firstIdx?, hp] at h
      omega
    · simp [firstIdx?, hp] at h
      obtain ⟨k, hk, rfl⟩ := h
      cases j with
      | zero => simp at ha; subst ha; simpa using hp
      | succ j =>
        simp at ha
        exact ih hk j (by omega) a ha

theorem firstIdx?_none {α : Type} {p : α → Bool} :
    ∀ {l : List α}, firstIdx? p l = none → ∀ a ∈ l, p a = false := by
  intro l
  induction l with
  | nil => intro _ a ha; simp at ha
  | cons x xs ih =>
    intro h a ha
    by_cases hp : p x
    · simp [firstIdx?, hp] at h
    · simp [firstIdx?, hp] at h
      rcases List.mem_cons.mp ha with rfl | ha
      · simpa using hp
      · exact ih h a ha

theorem stderrWrites_disabled (tr : List Effect) : stderrWrites false tr = [] := by
  induction tr with
  | nil => rfl
  | cons e tl ih =>
    cases e <;> simpa [stderrWrites, AnnounceToScreenReader] using ih

/-! ## Claims -/

/-- C9: with accessibility mode active, every announcement is exactly one
write to standard error, consisting of the text prefixed with
`[SCREEN_READER_ANNOUNCEMENT] ` and wrapped in the terminal conceal escape
sequence (ESC `[8m` before, ESC `[0m` after): the conceal-wrapped encoding
is the implemented delivery strategy. -/
theorem announce_conceal_wrapped_single_write (t : String) :
    AnnounceToScreenReader true t =
      ["\x1b[8m" ++ ("[SCREEN_READER_ANNOUNCEMENT] " ++ t) ++ "\x1b[0m"] ∧
    (AnnounceToScreenReader true t).length = 1 :=
  ⟨rfl, rfl⟩

/-- C7: when accessibility mode is disabled, nothing is announced: the
announcer writes nothing to standard error for any input text and any
handler trace, and none of the gated code paths (transition-flow
narrations, copy, help, speak-cell, speak-help, the initial footer
narration) even records an announcement effect. -/
theorem announcer_silent_when_disabled :
    (∀ t, AnnounceToScreenReader false t = []) ∧
    (∀ tr, stderrWrites false tr = []) ∧
    (∀ r c key st acts t,
      Effect.announce t ∉ moveSetup false r c key st acts) ∧
    (∀ key h hr r c btn t,
      Effect.announce t ∉ actionDone false key h hr r c btn) ∧
    (∀ hc r c t, Effect.announce t ∉ copyPath false hc r c) ∧
    (∀ t, Effect.announce t ∉ helpPath false) ∧
    (∀ data r c, speakCellPath false data r c = []) ∧
    speakHelpPath false = [] ∧
    (∀ ft data, initialAnnounce false ft data = []) := by
  refine ⟨fun t => rfl, stderrWrites_disabled, ?_, ?_, ?_, ?_, ?_, rfl, ?_⟩
  · intro r c key st acts t
    simp [moveSetup, refreshContextInFooter, announceIfEnabled]
  · intro key h hr r c btn t
    cases hres : h btn with
    | none =>
      cases hr <;>
        simp [actionDone, hres, refreshContextInFooter, announceIfEnabled]
    | some msg => simp [actionDone, hres, announceIfEnabled]
  · intro hc r c t
    cases hc <;> simp [copyPath, announceIfEnabled]
  · intro t
    simp [helpPath, announceIfEnabled]
  · intro data r c
    simp [speakCellPath]
  · intro ft data
    simp [initialAnnounce]

/-- C5: the action modal's initial focus index is the index of the first
candidate state equal to the current status, and `0` when none matches;
this index is the one passed when the modal's buttons are built during
the move setup. -/
theorem modal_default_focus_first_match (actions : List String) (s : String) :
    (s ∈ actions →
      actions[currentStatusIdx actions s]? = some s ∧
      ∀ j, j < currentStatusIdx actions s →
        actions[j]? ≠ some s) ∧
    (s ∉ actions → currentStatusIdx actions s = 0) ∧
    (∀ enabled r c key,
      Effect.setButtons actions (currentStatusIdx actions s) ∈
        moveSetup enabled r c key s actions) := by
  refine ⟨?_, ?_, ?_⟩
  · intro hmem
    cases hidx : firstIdx? (fun btn => btn == s) actions with
    | none =>
      have hall := firstIdx?_none hidx s hmem
      simp at hall
    | some i =>
      have hfound := firstIdx?_found hidx
      obtain ⟨a, ha, hpa⟩ := hfound
      have hais : a = s := by simpa using hpa
      subst hais
      constructor
      · simpa [currentStatusIdx, hidx] using ha
      · intro j hj hget
        have := firstIdx?_min hidx j (by simpa [currentStatusIdx, hidx] using hj) a hget
        simp at this
  · intro hmem
    cases hidx : firstIdx? (fun btn => btn == s) actions with
    | none => simp [currentStatusIdx, hidx]
    | some i =>
      obtain ⟨a, ha, hpa⟩ := firstIdx?_found hidx
      have : a = s := by simpa using hpa
      subst this
      exact absurd (List.getElem?_mem ha) hmem
  · intro enabled r c key
    simp [moveSetup]

/-- C5 witness: `candidateStates = ["Open", "In Progress", "Done"]` with
`currentStatus = "In Progress"` focuses index 1; an absent status defaults
to index 0. -/
theorem modal_default_focus_first_match_witness :
    ("In Progress" ∈ ["Open", "In Progress", "Done"] ∧
      ["Open", "In Progress", "Done"][currentStatusIdx
        ["Open", "In Progress", "Done"] "In Progress"]? = some "In Progress") ∧
    currentStatusIdx ["Open", "In Progress", "Done"] "In Progress" = 1 ∧
    ("Rejected" ∉ ["Open", "In Progress", "Done"] ∧
      currentStatusIdx ["Open", "In Progress", "Done"] "Rejected" = 0) :=
  ⟨⟨by decide,
    ((modal_default_focus_first_match ["Open", "In Progress", "Done"]
      "In Progress").1 (by decide)).1⟩,
   by decide,
   ⟨by decide,
    (modal_default_focus_first_match ["Open", "In Progress", "Done"]
      "Rejected").2.1 (by decide)⟩⟩

/-- Is the effect a `HidePage("action")`? -/
def Effect.isHideAction : Effect → Bool
  | Effect.hidePage n => n == "action"
  | _ => false

/-- C1: on a successful transition (handler returns no error) the action
modal is hidden exactly once, the success narration
"Successfully transitioned <key> to <label>" is recorded when
accessibility mode is active, the refresh callback runs exactly once when
present (never otherwise), and when present the trace ends with the
refresh call immediately followed by the full table re-render. -/
theorem transition_success_effects (enabled : Bool) (key : String)
    (handler : String → Option String) (hasRefresh : Bool) (r c : Int)
    (btnLabel : String) (hok : handler btnLabel = none) :
    ((actionDone enabled key handler hasRefresh r c btnLabel).filter
        Effect.isHideAction).length = 1 ∧
    (enabled = true →
      Effect.announce ("Successfully transitioned " ++ key ++ " to " ++
        btnLabel) ∈ actionDone enabled key handler hasRefresh r c btnLabel) ∧
    ((actionDone enabled key handler hasRefresh r c btnLabel).filter
        Effect.isRefresh).length = (if hasRefresh then 1 else 0) ∧
    (hasRefresh = true →
      (actionDone enabled key handler hasRefresh r c btnLabel).drop
          ((actionDone enabled key handler hasRefresh r c btnLabel).length - 2) =
        [Effect.refreshCall r c btnLabel, Effect.repaint]) := by
  cases enabled <;> cases hasRefresh <;>
    simp [actionDone, hok, announceIfEnabled, refreshContextInFooter,
      Effect.isHideAction, Effect.isRefresh]

/-- C1 witness: a concrete successful transition of "X-1" to "Done" with a
refresh callback present (accessibility mode active). -/
theorem transition_success_effects_witness :
    (fun _ : String => (none : Option String)) "Done" = none ∧
    (((actionDone true "X-1" (fun _ => none) true 1 0 "Done").filter
        Effect.isHideAction).length = 1 ∧
      (true = true →
        Effect.announce "Successfully transitioned X-1 to Done" ∈
          actionDone true "X-1" (fun _ => none) true 1 0 "Done") ∧
      ((actionDone true "X-1" (fun _ => none) true 1 0 "Done").filter
          Effect.isRefresh).length = (if true then 1 else 0) ∧
      (true = true →
        (actionDone true "X-1" (fun _ => none) true 1 0 "Done").drop
            ((actionDone true "X-1" (fun _ => none) true 1 0 "Done").length - 2) =
          [Effect.refreshCall 1 0 "Done", Effect.repaint])) :=
  ⟨rfl, by
    have h := transition_success_effects true "X-1" (fun _ => none) true 1 0
      "Done" rfl
    simpa using h⟩

/-- C2: on a failed transition (handler returns the error `msg`) the
modal footer is set to "Error: <msg>" in red, that text is narrated when
accessibility mode is active, the action modal is never hidden (the flow
stays interactive), and neither the refresh callback nor a table
re-render occurs. -/
theorem transition_failure_effects (enabled : Bool) (key : String)
    (handler : String → Option String) (hasRefresh : Bool) (r c : Int)
    (btnLabel msg : String) (herr : handler btnLabel = some msg) :
    Effect.setFooter ("Error: " ++ msg) Color.red ∈
      actionDone enabled key handler hasRefresh r c btnLabel ∧
    (enabled = true →
      Effect.announce ("Error: " ++ msg) ∈
        actionDone enabled key handler hasRefresh r c btnLabel) ∧
    ((actionDone enabled key handler hasRefresh r c btnLabel).filter
        Effect.isHideAction).length = 0 ∧
    ((actionDone enabled key handler hasRefresh r c btnLabel).filter
        Effect.isRefresh).length = 0 ∧
    Effect.repaint ∉ actionDone enabled key handler hasRefresh r c btnLabel := by
  cases enabled <;>
    simp [actionDone, herr, announceIfEnabled,
      Effect.isHideAction, Effect.isRefresh]

/-- C2 witness: a concrete failing transition whose handler reports
"boom" (accessibility mode active, refresh callback present). -/
theorem transition_failure_effects_witness :
    (fun _ : String => some "boom") "Done" = some "boom" ∧
    (Effect.setFooter "Error: boom" Color.red ∈
        actionDone true "X-1" (fun _ => some "boom") true 1 0 "Done" ∧
      ((actionDone true "X-1" (fun _ => some "boom") true 1 0 "Done").filter
          Effect.isRefresh).length = 0 ∧
      Effect.repaint ∉
        actionDone true "X-1" (fun _ => some "boom") true 1 0 "Done") :=
  ⟨rfl, by
    have h := transition_failure_effects true "X-1" (fun _ => some "boom")
      true 1 0 "Done" "boom" rfl
    exact ⟨h.1, h.2.2.2.1, h.2.2.2.2⟩⟩

/-- C3: cancelling the move modal with Esc or 'q' before selecting a
button hides the action modal (and performs nothing else on cancel), and
over the whole flow the handler obtained from `moveFunc` is never
invoked, no refresh callback runs, and no table re-render happens, so the
system is back in the state it had before the handler would run. -/
theorem transition_cancel_no_handler (enabled : Bool) (r c : Int)
    (key currentStatus : String) (actions : List String) (k : Key)
    (hk : k = Key.esc ∨ k = Key.rune 'q') :
    actionInputCapture k = [Effect.hidePage "action"] ∧
    (∀ l, Effect.handlerCall l ∉
      moveFlowCancelled enabled r c key currentStatus actions k) ∧
    ((moveFlowCancelled enabled r c key currentStatus actions k).filter
        Effect.isRefresh).length = 0 ∧
    Effect.repaint ∉ moveFlowCancelled enabled r c key currentStatus actions k := by
  rcases hk with rfl | rfl <;> cases enabled <;>
    simp [moveFlowCancelled, moveSetup, actionInputCapture,
      refreshContextInFooter, announceIfEnabled, Effect.isRefresh]

/-- C3 witness: a concrete cancellation with Esc before any selection. -/
theorem transition_cancel_no_handler_witness :
    ((Key.esc = Key.esc ∨ Key.esc = Key.rune 'q') ∧
      actionInputCapture Key.esc = [Effect.hidePage "action"]) ∧
    Effect.handlerCall "Done" ∉
      moveFlowCancelled true 1 0 "X-1" "Open" ["Open", "Done"] Key.esc :=
  ⟨⟨Or.inl rfl,
    (transition_cancel_no_handler true 1 0 "X-1" "Open" ["Open", "Done"]
      Key.esc (Or.inl rfl)).1⟩,
   (transition_cancel_no_handler true 1 0 "X-1" "Open" ["Open", "Done"]
      Key.esc (Or.inl rfl)).2.1 "Done"⟩

/-- C6: `Paint` fails with the `no data` error exactly when the input is
empty (the error return precedes any rendering effect), and with only a
header row it succeeds, renders without any announcement effect, and the
selection-change closure narrates nothing for any cursor position (no
data row `r ≥ 1` exists). -/
theorem paint_nodata_and_header_only (enabled : Bool) (ft : String)
    (data : TableData) :
    (Paint enabled ft data = Except.error errNoData ↔ List.length data = 0) ∧
    (List.length data = 1 →
      Paint enabled ft data = Except.ok [Effect.render, Effect.runUI] ∧
      initialAnnounce enabled ft data = [] ∧
      ∀ r c, selectionAnnouncement data r c = none) := by
  constructor
  · constructor
    · intro h
      by_cases hlen : List.length data = 0
      · exact hlen
      · simp [Paint, hlen] at h
    · intro h
      simp [Paint, h]
  · intro hone
    have hlen : (List.length data == 0) = false := by simp [hone]
    refine ⟨?_, ?_, ?_⟩
    · simp [Paint, hlen, initialAnnounce, hone]
    · simp [initialAnnounce, hone]
    · intro r c
      have : ¬(r > 0 ∧ r < (List.length data : Int) ∧ 0 ≤ c ∧
          c < ((List.headD data []).length : Int)) := by
        rw [hone]
        intro ⟨h1, h2, _, _⟩
        omega
      unfold selectionAnnouncement
      rw [if_neg this]

/-- C6 witness: `Paint` on empty data errors with `no data`; on a lone
header row it succeeds and composes no selection narration at row 1. -/
theorem paint_nodata_and_header_only_witness :
    Paint true "footer" ([] : TableData) = Except.error errNoData ∧
    (List.length ([["KEY", "STATUS", "SUMMARY"]] : TableData) = 1 ∧
      Paint true "footer" [["KEY", "STATUS", "SUMMARY"]] =
        Except.ok [Effect.render, Effect.runUI] ∧
      selectionAnnouncement [["KEY", "STATUS", "SUMMARY"]] 1 0 = none) :=
  ⟨(paint_nodata_and_header_only true "footer" []).1.mpr rfl,
   rfl,
   ((paint_nodata_and_header_only true "footer"
      [["KEY", "STATUS", "SUMMARY"]]).2 rfl).1,
   ((paint_nodata_and_header_only true "footer"
      [["KEY", "STATUS", "SUMMARY"]]).2 rfl).2.2 1 0⟩

/-- C4: for every cursor move to a data row `r ≥ 1` with a valid column,
the announcement composed by the selection-changed closure equals the
spec's composition `"<r> of <totalDataRows>: <firstColumnValue>"`,
extended with `", <status>"` when a STATUS column exists in the header and
`", <summary>"` when a SUMMARY column exists (the row is assumed to have
as many cells as the header, the store's shape invariant). -/
theorem selection_announcement_matches_spec (data : TableData) (r c : Int)
    (hr1 : 1 ≤ r) (hr2 : r < (List.length data : Int))
    (hc0 : 0 ≤ c) (hc : c < ((List.headD data []).length : Int))
    (hrow : (List.getD data r.toNat []).length =
      (List.headD data []).length) :
    selectionAnnouncement data r c = some (specSelectionNarration data r) := by
  cases data with
  | nil => exfalso; simp at hr2; omega
  | cons hdr rest =>
    simp only [List.headD_cons] at hrow hc
    have hguard : r > 0 ∧ r < (List.length (hdr :: rest) : Int) ∧ 0 ≤ c ∧
        c < ((List.headD (hdr :: rest) []).length : Int) := by
      exact ⟨by omega, hr2, hc0, by simpa using hc⟩
    have hpos : (List.getD (hdr :: rest) r.toNat []).length > 0 := by
      rw [hrow]; omega
    unfold selectionAnnouncement specSelectionNarration
    rw [if_pos hguard, if_pos hpos]
    simp only [List.headD_cons]
    cases hstat : firstIdx? (fun v => equalFold v "STATUS") hdr with
    | none =>
      cases hsum : firstIdx? (fun v => equalFold v "SUMMARY") hdr with
      | none => simp [TableData.GetIndex, hstat, hsum]
      | some j =>
        have hj : j < (List.getD (hdr :: rest) r.toNat []).length := by
          rw [hrow]; exact firstIdx?_lt_length hsum
        rw [List.getD_eq_getElem?_getD] at hj
        simp [TableData.GetIndex, hstat, hsum, hj]
    | some i =>
      have hi : i < (List.getD (hdr :: rest) r.toNat []).length := by
        rw [hrow]; exact firstIdx?_lt_length hstat
      rw [List.getD_eq_getElem?_getD] at hi
      cases hsum : firstIdx? (fun v => equalFold v "SUMMARY") hdr with
      | none => simp [TableData.GetIndex, hstat, hsum, hi]
      | some j =>
        have hj : j < (List.getD (hdr :: rest) r.toNat []).length := by
          rw [hrow]; exact firstIdx?_lt_length hsum
        rw [List.getD_eq_getElem?_getD] at hj
        simp [TableData.GetIndex, hstat, hsum, hi, hj]

/-- C4 witness: header `["KEY", "STATUS", "SUMMARY"]`, row
`["X-1", "Open", "Fix bug"]`, selected at row 1, narrates
`"1 of 1: X-1, Open, Fix bug"`. -/
theorem selection_announcement_matches_spec_witness :
    selectionAnnouncement
        [["KEY", "STATUS", "SUMMARY"], ["X-1", "Open", "Fix bug"]] 1 0 =
      some "1 of 1: X-1, Open, Fix bug" := by
  have h := selection_announcement_matches_spec
    [["KEY", "STATUS", "SUMMARY"], ["X-1", "Open", "Fix bug"]] 1 0
    (by decide) (by decide) (by decide) (by decide) (by decide)
  rw [h]
  decide

/-- C10 counterexample: at row index 5 on a two-row table (a non-sentinel
out-of-range index) `Update` performs an unguarded out-of-range access —
modelled as `none` — so no cell is replaced and no updated table exists,
against the claim's unrestricted "otherwise only the cell at (r, c) is
replaced". -/
theorem update_out_of_range_counterexample :
    TableData.Update [["KEY"], ["X-1"]] 5 0 "v" = none ∧
    (TableData.Update [["KEY"], ["X-1"]] 5 0 "v").isSome = false := by
  decide

/-- C10 (amended): `Update` leaves the table unchanged on a `-1` sentinel
row or column; for indices within bounds it replaces exactly the cell at
`(r, c)` and leaves every other cell of every row, the header row
included, unchanged; any other index is an unguarded out-of-range access
(a panic), producing no updated table. -/
theorem update_frame_conditions (td : TableData) (r c : Int) (val : String) :
    ((r = -1 ∨ c = -1) → TableData.Update td r c val = some td) ∧
    (∀ row, 0 ≤ r → 0 ≤ c → td[r.toNat]? = some row →
      c.toNat < row.length →
      TableData.Update td r c val =
        some (td.set r.toNat (row.set c.toNat val)) ∧
      cell? (td.set r.toNat (row.set c.toNat val)) r.toNat c.toNat =
        some val ∧
      ∀ i j, ¬(i = r.toNat ∧ j = c.toNat) →
        cell? (td.set r.toNat (row.set c.toNat val)) i j = cell? td i j) ∧
    (r ≠ -1 → c ≠ -1 →
      (¬(0 ≤ r ∧ r.toNat < td.length) →
        TableData.Update td r c val = none) ∧
      (∀ row, 0 ≤ r → td[r.toNat]? = some row →
        ¬(0 ≤ c ∧ c.toNat < row.length) →
        TableData.Update td r c val = none)) := by
  refine ⟨?_, ?_, ?_⟩
  · intro h
    rcases h with rfl | rfl
    · simp [TableData.Update]
    · have : ¬((r : Int) ≠ -1 ∧ (-1 : Int) ≠ -1) := by simp
      simp [TableData.Update]
  · intro row hr0 hc0 hrow hcl
    have hrne : r ≠ -1 := by omega
    have hcne : c ≠ -1 := by omega
    have hrlen : r.toNat < td.length := (List.getElem?_eq_some_iff.mp hrow).1
    constructor
    · simp [TableData.Update, hrne, hcne, idx?, hr0, hrow, hc0, hcl]
    constructor
    · simp [cell?, List.getElem?_set_self (by simpa using hrlen),
        List.getElem?_set_self hcl]
    · intro i j hij
      by_cases hi : i = r.toNat
      · subst hi
        have hj : j ≠ c.toNat := by tauto
        simp [cell?, List.getElem?_set_self (by simpa using hrlen), hrow,
          List.getElem?_set_ne (fun hh => hj hh.symm)]
      · simp [cell?, List.getElem?_set_ne (fun hh => hi hh.symm)]
  · intro hrne hcne
    constructor
    · intro hout
      by_cases hr0 : 0 ≤ r
      · have hrbig : td.length ≤ r.toNat := by omega
        simp [TableData.Update, hrne, hcne, idx?, hr0,
          List.getElem?_eq_none hrbig]
      · simp [TableData.Update, hrne, hcne, idx?, hr0]
    · intro row hr0 hrow hnc
      simp [TableData.Update, hrne, hcne, idx?, hr0, hrow, hnc]

/-- C10 witness: on the concrete table `[["KEY"], ["X-1"]]`, the sentinel
column `-1` leaves it unchanged; the in-range update at `(1, 0)` replaces
exactly that cell, leaving the header untouched; and each out-of-range
shape — row overflow `(5, 0)`, negative non-sentinel row `(-2, 0)`, and
column overflow `(1, 5)` — produces no updated table. -/
theorem update_frame_conditions_witness :
    TableData.Update [["KEY"], ["X-1"]] 1 (-1) "v" = some [["KEY"], ["X-1"]] ∧
    (TableData.Update [["KEY"], ["X-1"]] 1 0 "v" = some [["KEY"], ["v"]] ∧
      cell? [["KEY"], ["v"]] 0 0 = cell? [["KEY"], ["X-1"]] 0 0) ∧
    TableData.Update [["KEY"], ["X-1"]] 5 0 "v" = none ∧
    TableData.Update [["KEY"], ["X-1"]] (-2) 0 "v" = none ∧
    TableData.Update [["KEY"], ["X-1"]] 1 5 "v" = none :=
  ⟨(update_frame_conditions [["KEY"], ["X-1"]] 1 (-1) "v").1 (Or.inr rfl),
   by
    have h := (update_frame_conditions [["KEY"], ["X-1"]] 1 0 "v").2.1
      ["X-1"] (by decide) (by decide) (by decide) (by decide)
    exact ⟨h.1, h.2.2 0 0 (by decide)⟩,
   ((update_frame_conditions [["KEY"], ["X-1"]] 5 0 "v").2.2
      (by decide) (by decide)).1 (by decide),
   ((update_frame_conditions [["KEY"], ["X-1"]] (-2) 0 "v").2.2
      (by decide) (by decide)).1 (by decide),
   ((update_frame_conditions [["KEY"], ["X-1"]] 1 5 "v").2.2
      (by decide) (by decide)).2 ["X-1"] (by decide) (by decide) (by decide)⟩

end JiraTui
